import Mathlib

/-!
# Verification of `easy_csv_db.py` against its specification

Shallow embedding of the `EasyCsvDb` class (`src/easy_csv_db.py`).

Modelling conventions:

* A SQLite value produced by this code is either TEXT or NULL, so a cell is
  `Option String`; Python's `str(value)` is `pyStr` (with `str(None) = "None"`).
* A CSV file, as far as the claims need it, is the sequence of records the
  `csv` module parses out of it: `List (List String)`.  A file that cannot be
  opened is represented by passing `none` for the file argument.
* The store (the SQLite connection's database) is a `State`: the table catalog
  and the view catalog, both in `sqlite_master` (creation) order, plus the
  instance's `csv_path_by_table_name` registry (a Python dict, modelled as an
  insertion-ordered association list with in-place overwrite).
* Transaction semantics.  `create_table_from_csv` wraps its statements in
  `with self.connection:`.  Under Python's default (legacy) transaction
  control, an implicit `BEGIN` is emitted only before DML statements
  (INSERT/UPDATE/DELETE/REPLACE); DDL statements such as `DROP TABLE` and
  `CREATE TABLE` execute in autocommit mode when no transaction is open
  (since Python 3.6 they no longer implicitly commit, and they never
  implicitly begin).  The connection context manager's rollback on exception
  therefore only undoes the pending INSERTs.  The model reflects this: once
  the `DROP TABLE IF EXISTS` statement has executed, its effect survives any
  later failure of the call.  The model assumes the connection is not inside
  an explicit transaction at entry, which every code path of the class
  maintains (SELECTs do not open transactions in legacy mode, and the other
  writers commit or roll back before returning).
* Exceptions become an explicit result: `Except PyErr Unit × State`, the
  final state being returned alongside the outcome so that post-failure
  states are observable.
-/

namespace EasyCsvDb

/-- A SQLite cell as this program produces them: TEXT or NULL. -/
abbrev Val := Option String

/-- Python `str(value)` on a cell: a string renders as itself, `None` as `"None"`. -/
def pyStr : Val → String
  | some s => s
  | none => "None"

/-- A base relation: ordered column names and rows of positionally aligned cells. -/
structure Table where
  cols : List String
  rows : List (List Val)
deriving Repr, DecidableEq

/-- Denotation of a SELECT query: given the current table catalog, the rows it
returns.  Query execution itself belongs to the embedded engine and is out of
scope, so a query is modelled by its meaning. -/
def SqlQuery := List (String × Table) → List (List Val)

/-- The store plus the per-instance bookkeeping of `EasyCsvDb`:
`tables` and `views` model `sqlite_master` entries of the respective type in
creation order, `registry` models the instance dict `csv_path_by_table_name`. -/
structure State where
  tables : List (String × Table)
  views : List (String × SqlQuery)
  registry : List (String × String)

/-- The Python exceptions the modelled code paths can raise. -/
inductive PyErr where
  /-- `open()` failed (`FileNotFoundError` / `OSError`). -/
  | fileNotFound
  /-- `TypeError`, e.g. `",".join(...)` iterating over `None`. -/
  | typeError
  /-- any `sqlite3` error (syntax error, duplicate column, name clash, ...). -/
  | engineError
  /-- Python's builtin `ImportError`; listed so claims about it are statable. -/
  | importError
  /-- the spec's `NameMismatchError` for view creation. -/
  | nameMismatch
deriving Repr, DecidableEq

/-- First-match association-list lookup: how both SQLite resolves a name in its
catalog (names are unique there) and how the claims read the registry. -/
def assocLookup (k : String) : List (String × α) → Option α
  | [] => none
  | e :: rest => if e.1 = k then some e.2 else assocLookup k rest

/-- `get_all_table_names`: `SELECT name FROM sqlite_master WHERE type='table'`. -/
def get_all_table_names (st : State) : List String :=
  st.tables.map Prod.fst

/-- The view names in the catalog (`sqlite_master` rows with `type='view'`). -/
def get_all_view_names (st : State) : List String :=
  st.views.map Prod.fst

/-- The table catalog entry for a name, if any. -/
def lookupTable (st : State) (t : String) : Option Table :=
  assocLookup t st.tables

/-- The spec's `PathFor`: lookup in the instance dict `csv_path_by_table_name`. -/
def pathFor (st : State) (t : String) : Option String :=
  assocLookup t st.registry

/-- Python dict assignment `d[k] = v`: overwrite in place when the key exists
(keeping its position, as Python dicts do), otherwise append. -/
def registryInsert (reg : List (String × String)) (k v : String) :
    List (String × String) :=
  if (assocLookup k reg).isSome then
    reg.map (fun e => if e.1 = k then (k, v) else e)
  else
    reg ++ [(k, v)]

/-- The last path component of a POSIX path (`pathlib.PurePath.name`). -/
def pathFinalComponent (p : String) : String :=
  ((((p.splitOn "/").filter (fun s => s ≠ ""))).getLast?).getD ""

/-- `pathlib.PurePath.stem`: the final component with its last extension
removed; a leading dot or a trailing dot does not start an extension. -/
def stem (p : String) : String :=
  let name := pathFinalComponent p
  let cs := name.toList
  let i := cs.length - 1 - (cs.reverse).indexOf '.'
  if cs.contains '.' && decide (0 < i) && decide (i < cs.length - 1) then
    String.mk (cs.take i)
  else
    name

/-- `if not table_name: table_name = csv_path.stem` — `None` and the empty
string are both falsy. -/
def resolveTableName (csvPath : String) (tableName : Option String) : String :=
  match tableName with
  | none => stem csvPath
  | some t => if t = "" then stem csvPath else t

/-! ## The `csv.DictReader` codec

`DictReader.fieldnames` reads the first record (staying `None` on an empty
file).  Iteration skips blank records, builds `dict(zip(fieldnames, row))`
(later assignments to a repeated fieldname overwrite earlier ones), stores
surplus fields under `restkey` (which `row.get` over the fieldnames never
sees), and fills missing trailing fieldnames with `restval = None`. -/

/-- A parsed CSV file: the records the `csv` module yields. -/
abbrev CsvFile := List (List String)

/-- `DictReader.fieldnames`: the first record, `none` when the file is empty. -/
def fieldnamesOf (recs : CsvFile) : Option (List String) :=
  recs.head?

/-- The records `DictReader` iteration yields rows for: everything after the
header, with blank records (`row == []`) skipped. -/
def dataRecords (recs : CsvFile) : List (List String) :=
  (recs.drop 1).filter (fun r => r ≠ [])

/-- The dict assignments `DictReader.__next__` performs for one record, in
order: `dict(zip(fieldnames, row))` followed by `d[key] = None` for the
fieldnames beyond the record's length. -/
def dictAssign (fs r : List String) : List (String × Val) :=
  (fs.zip r).map (fun p => (p.1, some p.2)) ++ (fs.drop r.length).map (fun f => (f, none))

/-- Lookup in an assignment sequence where the *last* assignment to a key
wins, as in a Python dict built by successive writes. -/
def lookupLast (f : String) : List (String × Val) → Option Val
  | [] => none
  | e :: rest =>
    match lookupLast f rest with
    | some w => some w
    | none => if e.1 = f then some e.2 else none

/-- `row.get(f)` on the dict `DictReader` built for record `r`. -/
def rowGet (fs r : List String) (f : String) : Val :=
  (lookupLast f (dictAssign fs r)).getD none

/-- `list(map(row.get, field_names))`: the parameter vector the bulk insert
binds for one record. -/
def rowVals (fs r : List String) : List Val :=
  fs.map (rowGet fs r)

/-! ## `create_table_from_csv` -/

/-- SQLite folds ASCII case when comparing identifiers. -/
def sqliteLower (s : String) : String :=
  String.mk (s.data.map Char.toLower)

/-- Whether a string contains a given character (over its character list). -/
def strHasChar (s : String) (c : Char) : Bool :=
  s.data.contains c

/-- Whether the generated `DROP TABLE IF EXISTS "{t}"` statement errors:
a double quote inside the name breaks the generated SQL text, and
`DROP TABLE` on a name held by a *view* is an engine error even with
`IF EXISTS`. -/
def dropTableStmtFails (st : State) (t : String) : Bool :=
  strHasChar t '"' || decide (t ∈ get_all_view_names st)

/-- Whether the generated `CREATE TABLE "{t}" ( cols )` statement errors:
an empty column list is a syntax error (this is also the shape the statement
takes for a header-only blank first line), duplicate column names (ASCII
case-insensitively) are rejected by the engine, and a double quote inside a
column name breaks the generated identifier quoting. -/
def createTableStmtFails (fs : List String) : Bool :=
  fs.isEmpty || !decide ((fs.map sqliteLower).Nodup) || fs.any (fun c => strHasChar c '"')

/-- `EasyCsvDb.create_table_from_csv(csv_path, table_name)`.

`file` is the parsed content of `csv_path`, or `none` when `open` fails.
The step order and the transaction model follow the source (see the module
docstring): the `DROP TABLE IF EXISTS` is durable the moment it runs because
DDL autocommits under legacy transaction control, while the `CREATE TABLE`
plus the bulk `INSERT` only become visible together on the successful exit of
the `with self.connection:` block — in this model no failure can occur
between them, so they are applied together on the success path.  The
registry write (line 111) happens after the `with` blocks, only on success. -/
def create_table_from_csv (st : State) (csvPath : String) (tableName : Option String)
    (file : Option CsvFile) : Except PyErr Unit × State :=
  let t := resolveTableName csvPath tableName
  match file with
  | none => (.error .fileNotFound, st)
  | some recs =>
    if dropTableStmtFails st t then
      (.error .engineError, st)
    else
      -- `DROP TABLE IF EXISTS "{t}"` has executed and autocommitted.
      let st1 : State := { st with tables := st.tables.filter (fun e => e.1 ≠ t) }
      match fieldnamesOf recs with
      | none =>
        -- `",".join(... for col in None)` raises before `CREATE TABLE` runs.
        (.error .typeError, st1)
      | some fs =>
        if createTableStmtFails fs then
          (.error .engineError, st1)
        else
          let tbl : Table := { cols := fs, rows := (dataRecords recs).map (rowVals fs) }
          let st2 : State := { st1 with tables := st1.tables ++ [(t, tbl)] }
          let st3 : State := { st2 with registry := registryInsert st2.registry t csvPath }
          (.ok (), st3)

/-- `EasyCsvDb.__init__(db_file_path=None)`: `sqlite3.connect(":memory:")`
opens a fresh, empty database, and `csv_path_by_table_name` is initialised to
a new empty dict on the instance (it is instance state, never shared between
two constructed handles). -/
def initInMemory : State :=
  { tables := [], views := [], registry := [] }

/-! ## `display_tables` / `_display_cursor_as_text_table`

`display_tables` runs `SELECT * FROM {t} LIMIT {max_table_rows_to_display}`
and hands the cursor to `_display_cursor_as_text_table`, which computes the
column widths from that cursor's rows (so from the *displayed* rows), prints
the header joined by `" | "` with each name left-justified to its column's
width (`f"{name:{w}}"` — `str` formatting left-justifies and pads with
spaces), prints a dash rule of `len(headers)` characters, re-runs the same
`LIMIT`ed SELECT, and prints each row with each `str(value)` left-justified
to its column's width. -/

/-- `f"{s:{w}}"` for a `str`: left-justify, pad with spaces to width `w`. -/
def pyFormatLeft (s : String) (w : Nat) : String :=
  s ++ String.mk (List.replicate (w - s.length) ' ')

/-- Python `sep.join(parts)`. -/
def sjoin (sep : String) : List String → String
  | [] => ""
  | [s] => s
  | s :: rest => s ++ sep ++ sjoin sep rest

/-- `{column: len(column) for column in column_names}`: the initial width of
every column is the length of its name. -/
def initWidths (_cols : List String) : String → Nat :=
  fun c => c.length

/-- `column_widths[column] = max(column_widths[column], len(str(value)))` for
one `(column, value)` pair. -/
def updateWidth (w : String → Nat) (c : String) (v : Val) : String → Nat :=
  fun x => if x = c then max (w c) (pyStr v).length else w x

/-- The inner loop `for column, value in zip(column_names, row)`. -/
def rowWidths (w : String → Nat) (cols : List String) (row : List Val) : String → Nat :=
  (cols.zip row).foldl (fun acc p => updateWidth acc p.1 p.2) w

/-- The outer loop `for row in cursor.fetchall()` over the displayed rows. -/
def columnWidths (cols : List String) (rows : List (List Val)) : String → Nat :=
  rows.foldl (fun acc r => rowWidths acc cols r) (initWidths cols)

/-- The printed header line: names left-justified to their column widths,
joined by `" | "`. -/
def headerLine (cols : List String) (rows : List (List Val)) : String :=
  sjoin " | " (cols.map (fun c => pyFormatLeft c (columnWidths cols rows c)))

/-- The printed divider: `"-" * len(headers)`. -/
def dividerLine (cols : List String) (rows : List (List Val)) : String :=
  String.mk (List.replicate (headerLine cols rows).length '-')

/-- One printed data line: each `str(value)` left-justified to its column's
width, joined by `" | "`. -/
def renderRow (cols : List String) (rows : List (List Val)) (r : List Val) : String :=
  sjoin " | " ((cols.zip r).map (fun p => pyFormatLeft (pyStr p.2) (columnWidths cols rows p.1)))

/-- `_display_cursor_as_text_table` on a cursor holding `rows`: the header,
the divider, then one line per displayed row (the second `SELECT ... LIMIT`
returns the same rows the widths were computed from). -/
def displayCursorAsTextTable (cols : List String) (rows : List (List Val)) : List String :=
  headerLine cols rows :: dividerLine cols rows :: rows.map (renderRow cols rows)

/-- The text-table block `display_tables` prints for one table: the cursor it
renders holds `SELECT * FROM t LIMIT max_table_rows_to_display`, i.e. the
first `maxRows` rows. -/
def displayTableBlock (tbl : Table) (maxRows : Nat) : List String :=
  displayCursorAsTextTable tbl.cols (tbl.rows.take maxRows)

/-! ## View creation

`create_view` and `get_all_view_names` are exercised by the repository's
tests (`test_create_view`, `test_get_all_view_names`) but their definitions
are not under `src/`; they are modelled from the spec (§4.3, §4.2). -/

/-- A caller-supplied `CREATE VIEW ...` statement: the view name embedded in
the statement text, and the meaning of its defining SELECT.  The spec notes
that when the engine requires the name embedded in the statement, the
caller-supplied name must match what the statement actually defines. -/
structure ViewStmt where
  definesName : String
  query : SqlQuery

/-- Modelled from the spec: `CreateViewFromQuery` / `create_view` (absent
from `src/`, called by the tests as
`create_view(create_view_statement, csv_path, view_name)`).  Per spec §4.3 it
issues the CREATE-VIEW statement (the engine rejects a name already held by a
table or view), then verifies post-creation that the caller-supplied name now
appears in the catalog's view list, failing with `NameMismatchError` if not,
and finally registers the name→path association (the test asserts the
caller's name is registered).  The sync-to-file side effect writes no store
state and is not modelled. -/
def create_view (st : State) (stmt : ViewStmt) (csvPath : String) (viewName : String) :
    Except PyErr Unit × State :=
  if stmt.definesName ∈ get_all_table_names st ∨ stmt.definesName ∈ get_all_view_names st then
    (.error .engineError, st)
  else
    let st1 : State := { st with views := st.views ++ [(stmt.definesName, stmt.query)] }
    if viewName ∈ get_all_view_names st1 then
      (.ok (), { st1 with registry := registryInsert st1.registry viewName csvPath })
    else
      (.error .nameMismatch, st1)

/-- Querying a view name (`SELECT * FROM v`): the stored defining query is
recomputed on read against the current relation contents. -/
def queryView (st : State) (v : String) : Option (List (List Val)) :=
  (assocLookup v st.views).map (fun q => q st.tables)

/-- The table `create_table_from_csv` builds on success: the decoded header
as columns, one positionally bound row per non-blank data record. -/
def importedTable (fs : List String) (recs : CsvFile) : Table :=
  { cols := fs, rows := (dataRecords recs).map (rowVals fs) }

/-- The state a successful `create_table_from_csv` leaves behind (restating
the success branch of the definition, for reuse across lemmas). -/
def importSuccessState (st : State) (csvPath t : String) (fs : List String)
    (recs : CsvFile) : State :=
  { tables := st.tables.filter (fun e => e.1 ≠ t) ++ [(t, importedTable fs recs)],
    views := st.views,
    registry := registryInsert st.registry t csvPath }

/-! ## Association list and registry lemmas -/

theorem resolveTableName_some (p : String) {t : String} (ht : t ≠ "") :
    resolveTableName p (some t) = t := by
  simp [resolveTableName, ht]

theorem assocLookup_eq_none_of_not_mem_keys {α : Type} {l : List (String × α)} {k : String}
    (h : k ∉ l.map Prod.fst) : assocLookup k l = none := by
  induction l with
  | nil => rfl
  | cons e rest ih =>
    simp only [List.map_cons, List.mem_cons, not_or] at h
    simp [assocLookup, Ne.symm h.1, ih h.2]

theorem not_mem_keys_of_assocLookup_eq_none {α : Type} {l : List (String × α)} {k : String}
    (h : assocLookup k l = none) : k ∉ l.map Prod.fst := by
  induction l with
  | nil => simp
  | cons e rest ih =>
    by_cases he : e.1 = k
    · simp [assocLookup, he] at h
    · simp only [assocLookup, he, if_false] at h
      simp only [List.map_cons, List.mem_cons, not_or]
      exact ⟨Ne.symm he, ih h⟩

theorem assocLookup_append {α : Type} (k : String) (l1 l2 : List (String × α)) :
    assocLookup k (l1 ++ l2) =
      match assocLookup k l1 with
      | some v => some v
      | none => assocLookup k l2 := by
  induction l1 with
  | nil => rfl
  | cons e rest ih =>
    by_cases he : e.1 = k <;> simp [assocLookup, he, ih]

theorem assocLookup_filter_ne {α : Type} {l : List (String × α)} {k t : String} (hne : k ≠ t) :
    assocLookup k (l.filter (fun e => e.1 ≠ t)) = assocLookup k l := by
  induction l with
  | nil => rfl
  | cons e rest ih =>
    simp only [decide_not] at ih ⊢
    by_cases he : e.1 = t
    · simp [List.filter_cons, he, assocLookup, Ne.symm hne, ih]
    · simp [List.filter_cons, he, assocLookup, ih]

theorem assocLookup_dropCreate_self {α : Type} (l : List (String × α)) (t : String) (x : α) :
    assocLookup t (l.filter (fun e => e.1 ≠ t) ++ [(t, x)]) = some x := by
  rw [assocLookup_append]
  have hnone : assocLookup t (l.filter (fun e => e.1 ≠ t)) = none := by
    apply assocLookup_eq_none_of_not_mem_keys
    intro hmem
    simp only [List.mem_map, List.mem_filter] at hmem
    obtain ⟨e, ⟨_, hkey⟩, hfst⟩ := hmem
    simp [hfst] at hkey
  rw [hnone]
  simp [assocLookup]

theorem assocLookup_dropCreate_ne {α : Type} {l : List (String × α)} {k t : String} (x : α)
    (hne : k ≠ t) :
    assocLookup k (l.filter (fun e => e.1 ≠ t) ++ [(t, x)]) = assocLookup k l := by
  rw [assocLookup_append, assocLookup_filter_ne hne]
  cases h : assocLookup k l <;> simp [assocLookup, Ne.symm hne]

theorem assocLookup_map_overwrite {reg : List (String × String)} {k' k v : String}
    (hne : k' ≠ k) :
    assocLookup k' (reg.map (fun e => if e.1 = k then (k, v) else e)) = assocLookup k' reg := by
  induction reg with
  | nil => rfl
  | cons e rest ih =>
    by_cases he : e.1 = k
    · have hek : ¬ e.1 = k' := by
        intro hh
        exact hne (hh.symm.trans he)
      simp [assocLookup, he, Ne.symm hne, hek, ih]
    · simp [assocLookup, he, ih]

theorem assocLookup_registryInsert_self (reg : List (String × String)) (k v : String) :
    assocLookup k (registryInsert reg k v) = some v := by
  unfold registryInsert
  split
  · rename_i h
    induction reg with
    | nil => simp [assocLookup] at h
    | cons e rest ih =>
      by_cases he : e.1 = k
      · simp [assocLookup, he]
      · simp only [assocLookup, he, if_false] at h
        simp [assocLookup, he, ih h]
  · rename_i h
    rw [assocLookup_append]
    rw [Option.not_isSome_iff_eq_none] at h
    rw [h]
    simp [assocLookup]

theorem assocLookup_registryInsert_ne (reg : List (String × String)) {k' k : String}
    (v : String) (hne : k' ≠ k) :
    assocLookup k' (registryInsert reg k v) = assocLookup k' reg := by
  unfold registryInsert
  split
  · exact assocLookup_map_overwrite hne
  · rw [assocLookup_append]
    cases h : assocLookup k' reg <;> simp [assocLookup, Ne.symm hne]

theorem keys_map_overwrite (reg : List (String × String)) (k v : String) :
    (reg.map (fun e => if e.1 = k then (k, v) else e)).map Prod.fst = reg.map Prod.fst := by
  induction reg with
  | nil => rfl
  | cons e rest ih =>
    by_cases he : e.1 = k <;> simp [he, ih]

theorem registryInsert_keys (reg : List (String × String)) (k v : String) :
    (registryInsert reg k v).map Prod.fst =
      if (assocLookup k reg).isSome then reg.map Prod.fst else reg.map Prod.fst ++ [k] := by
  unfold registryInsert
  split <;> rename_i h
  · simp [h]
    intro a b _
    by_cases hak : a = k <;> simp [hak]
  · simp [h]

theorem registryInsert_keys_nodup {reg : List (String × String)} (k v : String)
    (h : (reg.map Prod.fst).Nodup) : ((registryInsert reg k v).map Prod.fst).Nodup := by
  rw [registryInsert_keys]
  split
  · exact h
  · rename_i hnone
    rw [Option.not_isSome_iff_eq_none] at hnone
    have := not_mem_keys_of_assocLookup_eq_none hnone
    simp [List.nodup_append, h, this]

/-! ## `DictReader` row-binding lemmas -/

theorem dictAssign_nil_left (r : List String) : dictAssign [] r = [] := by
  simp [dictAssign]

theorem dictAssign_cons_nil (f : String) (fs : List String) :
    dictAssign (f :: fs) [] = (f, none) :: dictAssign fs [] := by
  simp [dictAssign]

theorem dictAssign_cons_cons (f v : String) (fs r : List String) :
    dictAssign (f :: fs) (v :: r) = (f, some v) :: dictAssign fs r := by
  simp [dictAssign, List.zip_cons_cons]

theorem dictAssign_keys (fs : List String) (r : List String) :
    (dictAssign fs r).map Prod.fst = fs := by
  induction fs generalizing r with
  | nil => simp [dictAssign]
  | cons f fs ih =>
    cases r with
    | nil => simp [dictAssign_cons_nil, ih]
    | cons v r => simp [dictAssign_cons_cons, ih]

theorem lookupLast_eq_none_of_not_mem_keys {l : List (String × Val)} {f : String}
    (h : f ∉ l.map Prod.fst) : lookupLast f l = none := by
  induction l with
  | nil => rfl
  | cons e rest ih =>
    simp only [List.map_cons, List.mem_cons, not_or] at h
    simp [lookupLast, ih h.2, Ne.symm h.1]

theorem lookupLast_isSome_of_mem_keys {l : List (String × Val)} {f : String}
    (h : f ∈ l.map Prod.fst) : (lookupLast f l).isSome := by
  induction l with
  | nil => simp at h
  | cons e rest ih =>
    simp only [List.map_cons, List.mem_cons] at h
    by_cases hr : f ∈ rest.map Prod.fst
    · have := ih hr
      simp only [lookupLast]
      cases hl : lookupLast f rest
      · rw [hl] at this
        simp at this
      · simp
    · have hf : e.1 = f := by
        rcases h with h | h
        · exact h.symm
        · exact absurd h hr
      simp [lookupLast, lookupLast_eq_none_of_not_mem_keys hr, hf]

/-- `row.get` on the head fieldname, when that fieldname occurs nowhere else:
the head assignment wins. -/
theorem rowGet_head_cons {f : String} {fs r : List String} {v : String}
    (hf : f ∉ fs) : rowGet (f :: fs) (v :: r) f = some v := by
  have hnone : lookupLast f (dictAssign fs r) = none :=
    lookupLast_eq_none_of_not_mem_keys (by rw [dictAssign_keys]; exact hf)
  rw [rowGet, dictAssign_cons_cons]
  simp only [lookupLast, hnone]
  simp

theorem rowGet_head_nil {f : String} {fs : List String}
    (hf : f ∉ fs) : rowGet (f :: fs) [] f = none := by
  have hnone : lookupLast f (dictAssign fs []) = none :=
    lookupLast_eq_none_of_not_mem_keys (by rw [dictAssign_keys]; exact hf)
  rw [rowGet, dictAssign_cons_nil]
  simp only [lookupLast, hnone]
  simp

/-- `row.get` on a later fieldname ignores the head assignment. -/
theorem rowGet_tail {f g : String} {fs r : List String} {w : Val}
    (hg : g ∈ fs) :
    (lookupLast g ((f, w) :: dictAssign fs r)).getD none = rowGet fs r g := by
  have hsome : (lookupLast g (dictAssign fs r)).isSome := by
    apply lookupLast_isSome_of_mem_keys
    rw [dictAssign_keys]
    exact hg
  simp only [lookupLast]
  cases hl : lookupLast g (dictAssign fs r)
  · rw [hl] at hsome
    simp at hsome
  · simp [rowGet, hl]

theorem rowVals_cons_cons {f v : String} {fs r : List String} (hf : f ∉ fs) :
    rowVals (f :: fs) (v :: r) = some v :: rowVals fs r := by
  simp only [rowVals, List.map_cons, rowGet_head_cons hf]
  congr 1
  apply List.map_congr_left
  intro g hg
  simp only [rowGet, dictAssign_cons_cons]
  exact rowGet_tail hg

theorem rowVals_cons_nil {f : String} {fs : List String} (hf : f ∉ fs) :
    rowVals (f :: fs) [] = none :: rowVals fs [] := by
  simp only [rowVals, List.map_cons, rowGet_head_nil hf]
  congr 1
  apply List.map_congr_left
  intro g hg
  simp only [rowGet, dictAssign_cons_nil]
  exact rowGet_tail hg

/-- The parameter vector bound for a record, under a duplicate-free header:
the record's values positionally (truncated to the header's arity), then
`None` for the missing trailing fields. -/
theorem rowVals_eq {fs : List String} (r : List String) (hnd : fs.Nodup) :
    rowVals fs r =
      (r.take fs.length).map some ++ List.replicate (fs.length - r.length) none := by
  induction fs generalizing r with
  | nil => simp [rowVals]
  | cons f fs ih =>
    rw [List.nodup_cons] at hnd
    cases r with
    | nil =>
      rw [rowVals_cons_nil hnd.1, ih [] hnd.2]
      simp [List.replicate_succ]
    | cons v r =>
      rw [rowVals_cons_cons hnd.1, ih r hnd.2]
      simp [Nat.succ_sub_succ]

theorem rowVals_length (fs r : List String) : (rowVals fs r).length = fs.length := by
  simp [rowVals]

/-- A passing `CREATE TABLE` statement means the header was non-empty and
duplicate-free. -/
theorem of_createTableStmtFails_false {fs : List String}
    (h : createTableStmtFails fs = false) : fs ≠ [] ∧ fs.Nodup := by
  simp only [createTableStmtFails, Bool.or_eq_false_iff] at h
  obtain ⟨⟨hemp, hdup⟩, _⟩ := h
  refine ⟨by simpa using hemp, ?_⟩
  simp only [Bool.not_eq_false', decide_eq_true_eq] at hdup
  exact hdup.of_map sqliteLower

/-! ## Display-width lemmas -/

/-- The width fold over an explicit list of `(column, value)` pairs (the
`zip` the inner display loop iterates). -/
def foldPairs (w : String → Nat) (zs : List (String × Val)) : String → Nat :=
  zs.foldl (fun acc p => updateWidth acc p.1 p.2) w

theorem rowWidths_eq_foldPairs (w : String → Nat) (cols : List String) (row : List Val) :
    rowWidths w cols row = foldPairs w (cols.zip row) := rfl

theorem updateWidth_le (w : String → Nat) (c : String) (v : Val) (x : String) :
    w x ≤ updateWidth w c v x := by
  by_cases hx : x = c
  · subst hx
    simp [updateWidth]
  · simp [updateWidth, hx]

theorem foldPairs_le (zs : List (String × Val)) (w : String → Nat) (x : String) :
    w x ≤ foldPairs w zs x := by
  induction zs generalizing w with
  | nil => exact le_refl _
  | cons p zs ih => exact le_trans (updateWidth_le w p.1 p.2 x) (ih _)

theorem foldPairs_ge_val {zs : List (String × Val)} {c : String} {v : Val}
    (hmem : (c, v) ∈ zs) (w : String → Nat) :
    (pyStr v).length ≤ foldPairs w zs c := by
  induction zs generalizing w with
  | nil => cases hmem
  | cons p zs ih =>
    rcases List.mem_cons.1 hmem with h | h
    · subst h
      refine le_trans ?_ (foldPairs_le zs (updateWidth w c v) c)
      simp [updateWidth]
    · exact ih h _

theorem foldPairs_not_mem {zs : List (String × Val)} {c : String}
    (h : c ∉ zs.map Prod.fst) (w : String → Nat) : foldPairs w zs c = w c := by
  induction zs generalizing w with
  | nil => rfl
  | cons p zs ih =>
    simp only [List.map_cons, List.mem_cons, not_or] at h
    show foldPairs (updateWidth w p.1 p.2) zs c = w c
    rw [ih h.2]
    simp [updateWidth, h.1]

theorem foldPairs_mem_nodup {zs : List (String × Val)} {c : String} {v : Val}
    (hnd : (zs.map Prod.fst).Nodup) (hmem : (c, v) ∈ zs) (w : String → Nat) :
    foldPairs w zs c = max (w c) (pyStr v).length := by
  induction zs generalizing w with
  | nil => cases hmem
  | cons p zs ih =>
    simp only [List.map_cons, List.nodup_cons] at hnd
    rcases List.mem_cons.1 hmem with h | h
    · subst h
      show foldPairs (updateWidth w c v) zs c = _
      rw [foldPairs_not_mem hnd.1 _]
      simp [updateWidth]
    · have hmemkeys : c ∈ zs.map Prod.fst := List.mem_map.2 ⟨(c, v), h, rfl⟩
      have hcp : ¬ c = p.1 := fun hh => hnd.1 (hh ▸ hmemkeys)
      show foldPairs (updateWidth w p.1 p.2) zs c = _
      rw [ih hnd.2 h]
      simp [updateWidth, hcp]

theorem foldRows_le (rows : List (List Val)) (cols : List String) (w : String → Nat)
    (x : String) :
    w x ≤ rows.foldl (fun acc r => rowWidths acc cols r) w x := by
  induction rows generalizing w with
  | nil => exact le_refl _
  | cons r rows ih =>
    refine le_trans ?_ (ih _)
    show w x ≤ rowWidths w cols r x
    rw [rowWidths_eq_foldPairs]
    exact foldPairs_le _ _ _

theorem foldRows_ge_val {rows : List (List Val)} {cols : List String} {r : List Val}
    {c : String} {v : Val} (hr : r ∈ rows) (hcv : (c, v) ∈ cols.zip r) (w : String → Nat) :
    (pyStr v).length ≤ rows.foldl (fun acc r => rowWidths acc cols r) w c := by
  induction rows generalizing w with
  | nil => cases hr
  | cons r0 rows ih =>
    rcases List.mem_cons.1 hr with h | h
    · subst h
      refine le_trans ?_ (foldRows_le rows cols _ c)
      show (pyStr v).length ≤ rowWidths w cols r c
      rw [rowWidths_eq_foldPairs]
      exact foldPairs_ge_val hcv w
    · exact ih h _

theorem mem_zip_of_get? {cols : List String} {r : List Val} {i : Nat} {c : String} {v : Val}
    (h1 : cols.get? i = some c) (h2 : r.get? i = some v) : (c, v) ∈ cols.zip r := by
  induction cols generalizing r i with
  | nil => simp at h1
  | cons c0 cols ih =>
    cases r with
    | nil => simp at h2
    | cons v0 r =>
      cases i with
      | zero =>
        simp only [List.get?] at h1 h2
        obtain rfl : c0 = c := by injection h1
        obtain rfl : v0 = v := by injection h2
        simp [List.zip_cons_cons]
      | succ i =>
        simp only [List.get?] at h1 h2
        simp [List.zip_cons_cons, ih h1 h2]

/-- The displayed value of column `c` in a row, read positionally. -/
def colVal (cols : List String) (c : String) (r : List Val) : Val :=
  (r.get? (cols.indexOf c)).getD none

theorem mem_zip_colVal {cols : List String} {c : String} {r : List Val}
    (hc : c ∈ cols) (harr : r.length = cols.length) :
    (c, colVal cols c r) ∈ cols.zip r := by
  have hi : cols.indexOf c < cols.length := List.indexOf_lt_length.2 hc
  have hir : cols.indexOf c < r.length := by rw [harr]; exact hi
  have h2 : r.get? (cols.indexOf c) = some (r.get ⟨cols.indexOf c, hir⟩) :=
    List.get?_eq_get hir
  have hcv : colVal cols c r = r.get ⟨cols.indexOf c, hir⟩ := by
    rw [colVal, h2]
    rfl
  rw [hcv]
  exact mem_zip_of_get? (List.indexOf_get? hc) h2

theorem zip_keys_nodup {cols : List String} {r : List Val}
    (hnd : cols.Nodup) (harr : r.length = cols.length) :
    ((cols.zip r).map Prod.fst).Nodup := by
  rw [List.map_fst_zip cols r (le_of_eq harr.symm)]
  exact hnd

/-- The code's width fold computes, for each column, the maximum of the
header's length and the lengths of that column's displayed values. -/
theorem foldRows_formula {cols : List String} {c : String} (hnd : cols.Nodup)
    (hc : c ∈ cols) :
    ∀ (rows : List (List Val)), (∀ r ∈ rows, r.length = cols.length) → ∀ (w : String → Nat),
      rows.foldl (fun acc r => rowWidths acc cols r) w c =
        (rows.map (fun r => (pyStr (colVal cols c r)).length)).foldl max (w c) := by
  intro rows
  induction rows with
  | nil => intro _ _; rfl
  | cons r rows ih =>
    intro harity w
    have harr : r.length = cols.length := harity r (List.mem_cons_self r rows)
    have step : rowWidths w cols r c = max (w c) (pyStr (colVal cols c r)).length := by
      rw [rowWidths_eq_foldPairs]
      exact foldPairs_mem_nodup (zip_keys_nodup hnd harr) (mem_zip_colVal hc harr) w
    calc (r :: rows).foldl (fun acc r => rowWidths acc cols r) w c
        = rows.foldl (fun acc r => rowWidths acc cols r) (rowWidths w cols r) c := by
          rw [List.foldl_cons]
      _ = (rows.map (fun r => (pyStr (colVal cols c r)).length)).foldl max
            (rowWidths w cols r c) := ih (fun r hr => harity r (List.mem_cons_of_mem _ hr)) _
      _ = ((r :: rows).map (fun r => (pyStr (colVal cols c r)).length)).foldl max (w c) := by
          rw [step, List.map_cons, List.foldl_cons]

/-! ## Rendering-length lemmas -/

theorem length_mk_list (l : List Char) : (String.mk l).length = l.length := rfl

theorem pyFormatLeft_length (s : String) (w : Nat) :
    (pyFormatLeft s w).length = max s.length w := by
  rw [pyFormatLeft, String.length_append]
  have hrep : (String.mk (List.replicate (w - s.length) ' ')).length = w - s.length := by
    rw [length_mk_list, List.length_replicate]
  rw [hrep, Nat.max_def]
  split <;> omega

theorem sjoin_length (sep : String) (xs : List String) :
    (sjoin sep xs).length = (xs.map String.length).sum + sep.length * (xs.length - 1) := by
  induction xs with
  | nil => simp [sjoin]
  | cons s rest ih =>
    cases rest with
    | nil => simp [sjoin]
    | cons s2 rest2 =>
      rw [show sjoin sep (s :: s2 :: rest2) = s ++ sep ++ sjoin sep (s2 :: rest2) from rfl]
      rw [String.length_append, String.length_append, ih]
      simp only [List.map_cons, List.sum_cons, List.length_cons, Nat.add_sub_cancel]
      ring

theorem columnWidths_ge_init (cols : List String) (rows : List (List Val)) (x : String) :
    initWidths cols x ≤ columnWidths cols rows x :=
  foldRows_le rows cols (initWidths cols) x

theorem columnWidths_ge_val {cols : List String} {rows : List (List Val)} {r : List Val}
    {c : String} {v : Val} (hr : r ∈ rows) (hcv : (c, v) ∈ cols.zip r) :
    (pyStr v).length ≤ columnWidths cols rows c :=
  foldRows_ge_val hr hcv (initWidths cols)

/-- Every header cell is padded to exactly its column's width. -/
theorem headerCells_lengths (cols : List String) (rows : List (List Val)) :
    (cols.map (fun c => pyFormatLeft c (columnWidths cols rows c))).map String.length =
      cols.map (columnWidths cols rows) := by
  rw [List.map_map]
  apply List.map_congr_left
  intro c hc
  show (pyFormatLeft c (columnWidths cols rows c)).length = _
  rw [pyFormatLeft_length]
  exact Nat.max_eq_right (columnWidths_ge_init cols rows c)

/-- Every data cell of a displayed row is padded to exactly its column's
width. -/
theorem rowCells_lengths {cols : List String} {rows : List (List Val)} {r : List Val}
    (hr : r ∈ rows) (harr : r.length = cols.length) :
    ((cols.zip r).map
        (fun p => pyFormatLeft (pyStr p.2) (columnWidths cols rows p.1))).map String.length =
      cols.map (columnWidths cols rows) := by
  rw [List.map_map]
  have step : ∀ p ∈ cols.zip r,
      (String.length ∘ fun p => pyFormatLeft (pyStr p.2) (columnWidths cols rows p.1)) p =
        (columnWidths cols rows ∘ Prod.fst) p := by
    intro p hp
    show (pyFormatLeft (pyStr p.2) (columnWidths cols rows p.1)).length = _
    rw [pyFormatLeft_length]
    exact Nat.max_eq_right (columnWidths_ge_val hr hp)
  rw [List.map_congr_left step, ← List.map_map]
  rw [List.map_fst_zip cols r (le_of_eq harr.symm)]

theorem renderRow_length_eq_headerLine {cols : List String} {rows : List (List Val)}
    {r : List Val} (hr : r ∈ rows) (harr : r.length = cols.length) :
    (renderRow cols rows r).length = (headerLine cols rows).length := by
  rw [renderRow, headerLine, sjoin_length, sjoin_length,
    rowCells_lengths hr harr, headerCells_lengths]
  have hlen : (cols.zip r).length = cols.length := by
    rw [List.length_zip, harr, Nat.min_self]
  simp [hlen]

/-! ## Characterizing `create_table_from_csv` -/

theorem create_ok_run (st : State) (p t : String) (recs : CsvFile) (fs : List String)
    (ht : t ≠ "") (hdrop : dropTableStmtFails st t = false)
    (hfs : fieldnamesOf recs = some fs) (hcr : createTableStmtFails fs = false) :
    create_table_from_csv st p (some t) (some recs) =
      (.ok (), importSuccessState st p t fs recs) := by
  simp [create_table_from_csv, resolveTableName_some p ht, hdrop, hfs, hcr,
    importSuccessState, importedTable]

theorem create_ok_inv {st : State} {p t : String} {recs : CsvFile} {st' : State}
    (ht : t ≠ "")
    (h : create_table_from_csv st p (some t) (some recs) = (.ok (), st')) :
    ∃ fs, fieldnamesOf recs = some fs ∧ dropTableStmtFails st t = false ∧
      createTableStmtFails fs = false ∧ st' = importSuccessState st p t fs recs := by
  simp only [create_table_from_csv, resolveTableName_some p ht] at h
  by_cases hdrop : dropTableStmtFails st t
  · simp [hdrop] at h
  · cases hfs : fieldnamesOf recs with
    | none => simp [hdrop, hfs] at h
    | some fs =>
      by_cases hcr : createTableStmtFails fs
      · simp [hdrop, hfs, hcr] at h
      · refine ⟨fs, by simp [hfs], by simp [hdrop], by simp [hcr], ?_⟩
        simp only [Bool.not_eq_true] at hdrop hcr
        simp [hdrop, hfs, hcr] at h
        simp [importSuccessState, importedTable, ← h]

/-! # Claim theorems -/

/-- C1 (code_bug): the spec promises that a failed import leaves the store
exactly as before the call, but Python's legacy transaction control
autocommits the `DROP TABLE IF EXISTS` DDL, so a failure after it (here: an
empty CSV file, whose `None` fieldnames raise `TypeError` before `CREATE
TABLE`) destroys the pre-existing table and leaves nothing behind.  Evaluated
at the failing input: table `t` exists with a row before the call; the call
fails with `TypeError`; afterwards no table `t` exists. -/
theorem claim_C1_failed_import_drops_preexisting_table :
    lookupTable { tables := [("t", { cols := ["id"], rows := [[some "1"]] })],
                  views := [], registry := [] } "t" =
      some { cols := ["id"], rows := [[some "1"]] } ∧
    (create_table_from_csv
        { tables := [("t", { cols := ["id"], rows := [[some "1"]] })],
          views := [], registry := [] } "data.csv" (some "t") (some [])).1 =
      .error .typeError ∧
    lookupTable (create_table_from_csv
        { tables := [("t", { cols := ["id"], rows := [[some "1"]] })],
          views := [], registry := [] } "data.csv" (some "t") (some [])).2 "t" = none :=
  ⟨by decide, rfl, by decide⟩

/-- C2 (counterexample): the claim says a row with more fields than the
header fails the entire import and leaves no table behind; at this concrete
input the import succeeds and the table is left behind, populated with the
surplus row truncated to the header's arity. -/
theorem claim_C2_counterexample :
    (create_table_from_csv initInMemory "data.csv" (some "t")
        (some [["a", "b"], ["1", "2", "3"]])).1 = .ok () ∧
    lookupTable (create_table_from_csv initInMemory "data.csv" (some "t")
        (some [["a", "b"], ["1", "2", "3"]])).2 "t" =
      some { cols := ["a", "b"], rows := [[some "1", some "2"]] } :=
  ⟨rfl, by decide⟩

/-- C2 (corrected): a row with more fields than the header does not fail the
import.  `DictReader` stores the surplus fields under its `restkey`, which
`map(row.get, field_names)` never reads, so the row is inserted truncated to
the header's arity, the import succeeds, and every stored row's arity equals
the column count. -/
theorem claim_C2_surplus_fields_truncated_import_succeeds
    (st : State) (p t : String) (recs : CsvFile) (fs r : List String)
    (ht : t ≠ "") (hdrop : dropTableStmtFails st t = false)
    (hfs : fieldnamesOf recs = some fs) (hcr : createTableStmtFails fs = false)
    (hr : r ∈ dataRecords recs) (hlong : fs.length ≤ r.length) :
    (create_table_from_csv st p (some t) (some recs)).1 = .ok () ∧
    lookupTable (create_table_from_csv st p (some t) (some recs)).2 t =
      some (importedTable fs recs) ∧
    (r.take fs.length).map some ∈ (importedTable fs recs).rows ∧
    ∀ row ∈ (importedTable fs recs).rows, row.length = fs.length := by
  have hrun := create_ok_run st p t recs fs ht hdrop hfs hcr
  have hnd := (of_createTableStmtFails_false hcr).2
  refine ⟨by rw [hrun], ?_, ?_, ?_⟩
  · rw [hrun]
    exact assocLookup_dropCreate_self st.tables t (importedTable fs recs)
  · have heq := rowVals_eq r hnd
    have hrep : fs.length - r.length = 0 := Nat.sub_eq_zero_of_le hlong
    rw [hrep, List.replicate_zero, List.append_nil] at heq
    rw [← heq]
    exact List.mem_map_of_mem _ hr
  · intro row hrow
    obtain ⟨r0, _, rfl⟩ := List.mem_map.1 hrow
    exact rowVals_length fs r0

/-- C2 witness: the hypotheses of the corrected claim are satisfiable. -/
theorem claim_C2_witness :
    (create_table_from_csv initInMemory "w.csv" (some "u")
        (some [["a", "b"], ["1", "2", "3"]])).1 = .ok () :=
  (claim_C2_surplus_fields_truncated_import_succeeds initInMemory "w.csv" "u"
    [["a", "b"], ["1", "2", "3"]] ["a", "b"] ["1", "2", "3"]
    (by decide) (by decide) rfl (by decide) (by decide) (by decide)).1

/-- C3 (confirmed): after a successful `create_table_from_csv(p, t)` the
registry maps `t` to `p`; a subsequent successful call with `p2` overwrites
the mapping to `p2`; and the registry keeps at most one entry per name
(duplicate-free keys are preserved by the dict-style insert). -/
theorem claim_C3_registry_tracks_latest_path
    (st : State) (p t : String) (file : Option CsvFile) (st1 : State)
    (ht : t ≠ "")
    (h1 : create_table_from_csv st p (some t) file = (.ok (), st1)) :
    pathFor st1 t = some p ∧
    (∀ p2 file2 st2, create_table_from_csv st1 p2 (some t) file2 = (.ok (), st2) →
      pathFor st2 t = some p2) ∧
    ((st.registry.map Prod.fst).Nodup → (st1.registry.map Prod.fst).Nodup) := by
  cases file with
  | none => simp [create_table_from_csv] at h1
  | some recs =>
    obtain ⟨fs, hfs, hdrop, hcr, rfl⟩ := create_ok_inv ht h1
    refine ⟨assocLookup_registryInsert_self st.registry t p, ?_, ?_⟩
    · intro p2 file2 st2 h2
      cases file2 with
      | none => simp [create_table_from_csv] at h2
      | some recs2 =>
        obtain ⟨fs2, hfs2, hdrop2, hcr2, rfl⟩ := create_ok_inv ht h2
        exact assocLookup_registryInsert_self _ t p2
    · intro hnd
      exact registryInsert_keys_nodup t p hnd

/-- C3 witness: two successive imports of `t` leave the registry at the
second path. -/
theorem claim_C3_witness :
    pathFor (create_table_from_csv (create_table_from_csv initInMemory "a.csv" (some "t")
        (some [["c"], ["1"]])).2 "b.csv" (some "t") (some [["c"], ["2"]])).2 "t" =
      some "b.csv" :=
  (claim_C3_registry_tracks_latest_path initInMemory "a.csv" "t" (some [["c"], ["1"]])
      (create_table_from_csv initInMemory "a.csv" (some "t") (some [["c"], ["1"]])).2
      (by decide) rfl).2.1 "b.csv" (some [["c"], ["2"]])
    (create_table_from_csv (create_table_from_csv initInMemory "a.csv" (some "t")
        (some [["c"], ["1"]])).2 "b.csv" (some "t") (some [["c"], ["2"]])).2 rfl

/-- C4 (confirmed): after a successful import, importing the same file into
the same table name again succeeds and yields a table with identical columns
and rows (drop-and-recreate from the same decoded records). -/
theorem claim_C4_reimport_idempotent
    (st : State) (p t : String) (recs : CsvFile) (st1 : State)
    (ht : t ≠ "")
    (h1 : create_table_from_csv st p (some t) (some recs) = (.ok (), st1)) :
    ∃ st2, create_table_from_csv st1 p (some t) (some recs) = (.ok (), st2) ∧
      lookupTable st2 t = lookupTable st1 t := by
  obtain ⟨fs, hfs, hdrop, hcr, rfl⟩ := create_ok_inv ht h1
  have hdrop2 : dropTableStmtFails (importSuccessState st p t fs recs) t = false := by
    simp only [dropTableStmtFails, get_all_view_names, importSuccessState] at hdrop ⊢
    exact hdrop
  have hrun2 := create_ok_run (importSuccessState st p t fs recs) p t recs fs ht hdrop2 hfs hcr
  refine ⟨_, hrun2, ?_⟩
  have e1 : lookupTable (importSuccessState st p t fs recs) t = some (importedTable fs recs) :=
    assocLookup_dropCreate_self _ _ _
  have e2 : lookupTable
      (importSuccessState (importSuccessState st p t fs recs) p t fs recs) t =
      some (importedTable fs recs) :=
    assocLookup_dropCreate_self _ _ _
  rw [e1, e2]

/-- C4 witness: re-importing the same concrete file leaves the same table
content. -/
theorem claim_C4_witness :
    lookupTable (create_table_from_csv (create_table_from_csv initInMemory "a.csv" (some "t")
        (some [["c"], ["1"]])).2 "a.csv" (some "t") (some [["c"], ["1"]])).2 "t" =
      lookupTable (create_table_from_csv initInMemory "a.csv" (some "t")
        (some [["c"], ["1"]])).2 "t" := by
  obtain ⟨st2, h2, h3⟩ := claim_C4_reimport_idempotent initInMemory "a.csv" "t"
    [["c"], ["1"]]
    (create_table_from_csv initInMemory "a.csv" (some "t") (some [["c"], ["1"]])).2
    (by decide) rfl
  rw [h2]
  exact h3

/-- C5 (confirmed): on a successful import, a record with fewer fields than
the header is inserted positionally with `None` (NULL) filling the missing
trailing fields, and every stored row's arity equals the column count. -/
theorem claim_C5_short_rows_padded_with_null
    (st : State) (p t : String) (recs : CsvFile) (st' : State) (fs r : List String)
    (ht : t ≠ "")
    (h : create_table_from_csv st p (some t) (some recs) = (.ok (), st'))
    (hfs : fieldnamesOf recs = some fs)
    (hr : r ∈ dataRecords recs) (hshort : r.length ≤ fs.length) :
    lookupTable st' t = some (importedTable fs recs) ∧
    r.map some ++ List.replicate (fs.length - r.length) none ∈ (importedTable fs recs).rows ∧
    ∀ row ∈ (importedTable fs recs).rows,
      row.length = (importedTable fs recs).cols.length := by
  obtain ⟨fs2, hfs2, hdrop, hcr, rfl⟩ := create_ok_inv ht h
  obtain rfl : fs2 = fs := by
    rw [hfs] at hfs2
    injection hfs2 with hv
    exact hv.symm
  have hnd := (of_createTableStmtFails_false hcr).2
  refine ⟨assocLookup_dropCreate_self _ _ _, ?_, ?_⟩
  · have heq := rowVals_eq r hnd
    rw [List.take_of_length_le hshort] at heq
    rw [← heq]
    exact List.mem_map_of_mem _ hr
  · intro row hrow
    obtain ⟨r0, _, rfl⟩ := List.mem_map.1 hrow
    exact rowVals_length _ r0

/-- C5 witness: the hypotheses of C5 are satisfiable on a concrete short
row. -/
theorem claim_C5_witness :
    lookupTable (create_table_from_csv initInMemory "s.csv" (some "t")
        (some [["a", "b", "c"], ["1"]])).2 "t" =
      some (importedTable ["a", "b", "c"] [["a", "b", "c"], ["1"]]) :=
  (claim_C5_short_rows_padded_with_null initInMemory "s.csv" "t"
    [["a", "b", "c"], ["1"]]
    (create_table_from_csv initInMemory "s.csv" (some "t")
      (some [["a", "b", "c"], ["1"]])).2 ["a", "b", "c"] ["1"]
    (by decide) rfl rfl (by decide) (by decide)).1

/-- C6 (counterexample): a failed table creation does not raise an
`ImportError` wrapper; the underlying failure (here the file-open failure)
propagates as itself. -/
theorem claim_C6_counterexample :
    create_table_from_csv initInMemory "missing.csv" (some "t") none =
      (.error .fileNotFound, initInMemory) ∧
    PyErr.fileNotFound ≠ PyErr.importError :=
  ⟨rfl, by decide⟩

/-- C6 (corrected): `create_table_from_csv` has no exception handler at all;
whatever error a step raises propagates unwrapped, and in particular no
failure ever surfaces as `ImportError`. -/
theorem claim_C6_failures_propagate_unwrapped
    (st : State) (p : String) (tn : Option String) (file : Option CsvFile) (e : PyErr)
    (st' : State)
    (h : create_table_from_csv st p tn file = (.error e, st')) :
    e ≠ PyErr.importError := by
  intro he
  subst he
  cases file with
  | none => simp [create_table_from_csv] at h
  | some recs =>
    simp only [create_table_from_csv] at h
    by_cases hdrop : dropTableStmtFails st (resolveTableName p tn) = true
    · simp [hdrop] at h
    · rw [Bool.not_eq_true] at hdrop
      cases hfs : fieldnamesOf recs with
      | none => simp [hdrop, hfs] at h
      | some fs =>
        by_cases hcr : createTableStmtFails fs = true
        · simp [hdrop, hfs, hcr] at h
        · rw [Bool.not_eq_true] at hcr
          simp [hdrop, hfs, hcr] at h

/-- C6 witness: the hypotheses of the corrected claim are satisfiable. -/
theorem claim_C6_witness : PyErr.fileNotFound ≠ PyErr.importError :=
  claim_C6_failures_propagate_unwrapped initInMemory "missing.csv" (some "t") none
    .fileNotFound initInMemory rfl

/-- C7 (counterexample, spec-modelled): the claim fails when the caller's
view name is stale-present in the catalog while the statement defines a
different name.  Concretely: a view `v` already exists (defining the empty
result); `create_view` is called with a statement defining `w` but with
caller name `v`; the post-creation membership check passes because the old
`v` is still in the catalog, so the call succeeds — yet querying `v` returns
the old view's rows (`[]`), not the rows the new query selects
(`[[some "x"]]`). -/
theorem claim_C7_counterexample :
    (create_view { tables := [], views := [("v", fun _ => [])], registry := [] }
        { definesName := "w", query := fun _ => [[some "x"]] } "p.csv" "v").1 = .ok () ∧
    queryView (create_view { tables := [], views := [("v", fun _ => [])], registry := [] }
        { definesName := "w", query := fun _ => [[some "x"]] } "p.csv" "v").2 "v" =
      some [] ∧
    (ViewStmt.mk "w" (fun _ => [[some "x"]])).query
        (create_view { tables := [], views := [("v", fun _ => [])], registry := [] }
          { definesName := "w", query := fun _ => [[some "x"]] } "p.csv" "v").2.tables =
      [[some "x"]] ∧
    ([] : List (List Val)) ≠ [[some "x"]] :=
  ⟨rfl, rfl, rfl, by decide⟩

/-- C7 (corrected, spec-modelled): when the statement actually defines the
caller-supplied name `v` (the well-formed use the spec demands of callers),
a successful `create_view` leaves `v` in the view catalog and querying `v`
returns exactly the rows the defining query selects against the current
relation contents. -/
theorem claim_C7_view_consistency_when_statement_defines_name
    (st : State) (stmt : ViewStmt) (path v : String) (st' : State)
    (hname : stmt.definesName = v)
    (h : create_view st stmt path v = (.ok (), st')) :
    v ∈ get_all_view_names st' ∧ queryView st' v = some (stmt.query st'.tables) := by
  subst hname
  by_cases hclash : stmt.definesName ∈ get_all_table_names st ∨
      stmt.definesName ∈ get_all_view_names st
  · rw [create_view, if_pos hclash] at h
    exact absurd h (by simp)
  · have hmem : stmt.definesName ∈ get_all_view_names
        { st with views := st.views ++ [(stmt.definesName, stmt.query)] } := by
      simp [get_all_view_names]
    simp only [create_view, if_neg hclash] at h
    rw [if_pos hmem] at h
    have h2 := congrArg Prod.snd h
    simp only at h2
    subst h2
    constructor
    · simp [get_all_view_names]
    · have hnone : assocLookup stmt.definesName st.views = none := by
        apply assocLookup_eq_none_of_not_mem_keys
        intro hmem2
        exact hclash (Or.inr hmem2)
      show (assocLookup stmt.definesName
          (st.views ++ [(stmt.definesName, stmt.query)])).map _ = _
      rw [assocLookup_append, hnone]
      simp [assocLookup]

/-- C7 witness: a well-formed creation on a fresh store satisfies the
corrected claim's hypotheses. -/
theorem claim_C7_witness :
    "v" ∈ get_all_view_names
        (create_view initInMemory { definesName := "v", query := fun _ => [] }
          "p.csv" "v").2 ∧
    queryView (create_view initInMemory { definesName := "v", query := fun _ => [] }
        "p.csv" "v").2 "v" =
      some ((ViewStmt.mk "v" (fun _ => [])).query
        (create_view initInMemory { definesName := "v", query := fun _ => [] }
          "p.csv" "v").2.tables) :=
  claim_C7_view_consistency_when_statement_defines_name initInMemory
    { definesName := "v", query := fun _ => [] } "p.csv" "v"
    (create_view initInMemory { definesName := "v", query := fun _ => [] } "p.csv" "v").2
    rfl rfl

/-- C8 (confirmed): for every rendered table, each column's display width is
the maximum of the header name's length and the stringified length of every
displayed (up to `max_rows`) value in that column; the divider consists of
exactly as many dashes as the rendered header line has characters; and every
rendered data line (values left-justified and joined by `" | "`) has exactly
the header line's length. -/
theorem claim_C8_display_widths_alignment_divider
    (tbl : Table) (maxRows : Nat) (c : String)
    (hnd : tbl.cols.Nodup) (hc : c ∈ tbl.cols)
    (harity : ∀ r ∈ tbl.rows, r.length = tbl.cols.length) :
    columnWidths tbl.cols (tbl.rows.take maxRows) c =
      ((tbl.rows.take maxRows).map
        (fun r => (pyStr (colVal tbl.cols c r)).length)).foldl max c.length ∧
    (dividerLine tbl.cols (tbl.rows.take maxRows)).length =
      (headerLine tbl.cols (tbl.rows.take maxRows)).length ∧
    ∀ r ∈ tbl.rows.take maxRows,
      (renderRow tbl.cols (tbl.rows.take maxRows) r).length =
        (headerLine tbl.cols (tbl.rows.take maxRows)).length := by
  have harr : ∀ r ∈ tbl.rows.take maxRows, r.length = tbl.cols.length := by
    intro r hr
    exact harity r (List.take_subset maxRows tbl.rows hr)
  refine ⟨?_, ?_, ?_⟩
  · exact foldRows_formula hnd hc (tbl.rows.take maxRows) harr (initWidths tbl.cols)
  · rw [dividerLine, length_mk_list, List.length_replicate]
  · intro r hr
    exact renderRow_length_eq_headerLine hr (harr r hr)

/-- C8 witness: the width formula evaluated on a concrete two-column
table. -/
theorem claim_C8_witness :
    columnWidths ["id", "name"] ([[some "1", some "Alice"], [some "2", none]].take 4)
        "name" =
      (([[some "1", some "Alice"], [some "2", none]].take 4).map
        (fun r => (pyStr (colVal ["id", "name"] "name" r)).length)).foldl max
        "name".length :=
  (claim_C8_display_widths_alignment_divider
    { cols := ["id", "name"], rows := [[some "1", some "Alice"], [some "2", none]] }
    4 "name" (by decide) (by decide) (by decide)).1

/-- C9 (confirmed): `create_table_from_csv` only touches the target name:
on any outcome every other table keeps exactly its prior contents and every
other registry entry is unchanged, and on a failed call the registry — the
target's entry included — is exactly as before, because registration happens
only after the transaction block completes. -/
theorem claim_C9_frame_other_tables_and_registry
    (st : State) (p : String) (tn : Option String) (file : Option CsvFile) (t' : String)
    (hne : t' ≠ resolveTableName p tn) :
    lookupTable (create_table_from_csv st p tn file).2 t' = lookupTable st t' ∧
    pathFor (create_table_from_csv st p tn file).2 t' = pathFor st t' ∧
    ∀ e, (create_table_from_csv st p tn file).1 = .error e →
      (create_table_from_csv st p tn file).2.registry = st.registry := by
  cases file with
  | none => exact ⟨rfl, rfl, fun _ _ => rfl⟩
  | some recs =>
    by_cases hdrop : dropTableStmtFails st (resolveTableName p tn) = true
    · have heq : create_table_from_csv st p tn (some recs) = (.error .engineError, st) := by
        simp [create_table_from_csv, hdrop]
      rw [heq]
      exact ⟨rfl, rfl, fun _ _ => rfl⟩
    · rw [Bool.not_eq_true] at hdrop
      cases hfs : fieldnamesOf recs with
      | none =>
        have heq : create_table_from_csv st p tn (some recs) =
            (.error .typeError,
              { st with tables :=
                  st.tables.filter (fun e => e.1 ≠ resolveTableName p tn) }) := by
          simp [create_table_from_csv, hdrop, hfs]
        rw [heq]
        exact ⟨assocLookup_filter_ne hne, rfl, fun _ _ => rfl⟩
      | some fs =>
        by_cases hcr : createTableStmtFails fs = true
        · have heq : create_table_from_csv st p tn (some recs) =
              (.error .engineError,
                { st with tables :=
                    st.tables.filter (fun e => e.1 ≠ resolveTableName p tn) }) := by
            simp [create_table_from_csv, hdrop, hfs, hcr]
          rw [heq]
          exact ⟨assocLookup_filter_ne hne, rfl, fun _ _ => rfl⟩
        · rw [Bool.not_eq_true] at hcr
          have heq : create_table_from_csv st p tn (some recs) =
              (.ok (), importSuccessState st p (resolveTableName p tn) fs recs) := by
            simp [create_table_from_csv, hdrop, hfs, hcr, importSuccessState, importedTable]
          rw [heq]
          refine ⟨assocLookup_dropCreate_ne _ hne, assocLookup_registryInsert_ne _ _ hne, ?_⟩
          intro e he
          simp at he

/-- C9 witness: an unrelated table `u` survives an import of `t`
unchanged. -/
theorem claim_C9_witness :
    lookupTable (create_table_from_csv
        { tables := [("u", { cols := ["a"], rows := [] })], views := [], registry := [] }
        "f.csv" (some "t") (some [["c"], ["1"]])).2 "u" =
      lookupTable
        { tables := [("u", { cols := ["a"], rows := [] })], views := [], registry := [] }
        "u" :=
  (claim_C9_frame_other_tables_and_registry
    { tables := [("u", { cols := ["a"], rows := [] })], views := [], registry := [] }
    "f.csv" (some "t") (some [["c"], ["1"]]) "u" (by decide)).1

/-- C10 (confirmed): constructing the handle without a database file opens a
fresh in-memory database: the catalog lists no tables and no views, and the
name-to-path registry answers `none` for every name.  The registry is a
field of each handle's state (an instance attribute in the source), so two
constructed handles never share it. -/
theorem claim_C10_fresh_inmemory_store_empty (n : String) :
    get_all_table_names initInMemory = [] ∧
    get_all_view_names initInMemory = [] ∧
    pathFor initInMemory n = none :=
  ⟨rfl, rfl, rfl⟩

end EasyCsvDb
